import Mathlib

/-!
Verification of the Lift serverless plugin (`src/plugin.ts`).

The embedding models the configuration tree handled by the CDK token
system, the plugin's construct state, and the functions `loadConstructs`,
`getConstructs`, `resolveReference` (its `produce` closure),
`resolveLazyVariables`, `appendPermissions`, `getConstructClass`, `info`,
`postDeploy`, `preRemove` and the per-construct command hooks.
-/

namespace LiftSpec

/-- Configuration tree values: scalars, deferred-value tokens, arrays and
objects.  Sequences are encoded with `vnil`/`vcons` cells; `arr` wraps an
element sequence and `obj` wraps a sequence of `field` entries.  A `token i`
node stands for the opaque placeholder string produced by the CDK
`Lazy.any(...).toString()` call for the `i`-th registered deferred value. -/
inductive CValue where
  | str : String → CValue
  | num : Int → CValue
  | undef : CValue
  | token : Nat → CValue
  | vnil : CValue
  | vcons : CValue → CValue → CValue
  | field : String → CValue → CValue
  | arr : CValue → CValue
  | obj : CValue → CValue
deriving DecidableEq

/-- Returns `true` when a configuration subtree contains no deferred-value token. -/
def noTokens : CValue → Bool
  | CValue.str _ => true
  | CValue.num _ => true
  | CValue.undef => true
  | CValue.token _ => false
  | CValue.vnil => true
  | CValue.vcons x xs => noTokens x && noTokens xs
  | CValue.field _ v => noTokens v
  | CValue.arr v => noTokens v
  | CValue.obj v => noTokens v

/-- One resolution pass over a configuration tree: every token node is
replaced by the result of `force`; all other nodes are rebuilt structurally.
This is the tree walk performed by the CDK `Tokenization.resolve`, with
`force` standing for "produce the token's value and resolve it further". -/
def resolveOnce (force : Nat → Except String CValue) : CValue → Except String CValue
  | CValue.str s => Except.ok (CValue.str s)
  | CValue.num n => Except.ok (CValue.num n)
  | CValue.undef => Except.ok CValue.undef
  | CValue.token i => force i
  | CValue.vnil => Except.ok CValue.vnil
  | CValue.vcons x xs =>
    Except.bind (resolveOnce force x) (fun a =>
      Except.map (fun b => CValue.vcons a b) (resolveOnce force xs))
  | CValue.field k v => Except.map (fun w => CValue.field k w) (resolveOnce force v)
  | CValue.arr v => Except.map CValue.arr (resolveOnce force v)
  | CValue.obj v => Except.map CValue.obj (resolveOnce force v)

/-- Error produced when token resolution exceeds the recursion limit. -/
def tokenDepthMsg : String := "Unable to resolve nested tokens: recursion limit reached"

/-- Recursive token resolution with an explicit recursion-depth bound
(`fuel`): a token's produced value is itself resolved at the next lower
depth, so nested deferred values are flattened. -/
def resolveTokens (env : Nat → Except String CValue) : Nat → CValue → Except String CValue
  | 0 => resolveOnce (fun _ => Except.error tokenDepthMsg)
  | fuel + 1 => resolveOnce (fun i => Except.bind (env i) (resolveTokens env fuel))

/-- The six top-level service sections that `resolveLazyVariables` walks. -/
structure ServiceSections where
  provider : CValue
  functions : CValue
  custom : CValue
  resources : CValue
  layers : CValue
  outputs : CValue
deriving DecidableEq

/-- The section walk: `resolveTokens` guarded by the `input === undefined` check of the source's
inner `resolveTokens` helper. -/
def resolveSection (env : Nat → Except String CValue) (fuel : Nat) (input : CValue) :
    Except String CValue :=
  match input with
  | CValue.undef => Except.ok CValue.undef
  | v => resolveTokens env fuel v

/-- Source `LiftPlugin.resolveLazyVariables`: resolve the six service sections in
order, failing fast on the first error. -/
def resolveLazyVariables (env : Nat → Except String CValue) (fuel : Nat)
    (s : ServiceSections) : Except String ServiceSections :=
  Except.bind (resolveSection env fuel s.provider) (fun p =>
  Except.bind (resolveSection env fuel s.functions) (fun f =>
  Except.bind (resolveSection env fuel s.custom) (fun c =>
  Except.bind (resolveSection env fuel s.resources) (fun r =>
  Except.bind (resolveSection env fuel s.layers) (fun l =>
  Except.map (fun o => ServiceSections.mk p f c r l o)
    (resolveSection env fuel s.outputs))))))

/-- All six sections are free of deferred-value tokens. -/
def sectionsNoTokens (s : ServiceSections) : Bool :=
  noTokens s.provider && noTokens s.functions && noTokens s.custom &&
    noTokens s.resources && noTokens s.layers && noTokens s.outputs

theorem resolveOnce_of_noTokens (force : Nat → Except String CValue) (v : CValue)
    (h : noTokens v = true) : resolveOnce force v = Except.ok v := by
  induction v with
  | str s => rfl
  | num n => rfl
  | undef => rfl
  | token i => simp [noTokens] at h
  | vnil => rfl
  | vcons x xs ihx ihxs =>
    simp only [noTokens, Bool.and_eq_true] at h
    simp [resolveOnce, ihx h.1, ihxs h.2, Except.bind, Except.map]
  | field k v ih =>
    simp only [noTokens] at h
    simp [resolveOnce, ih h, Except.map]
  | arr v ih =>
    simp only [noTokens] at h
    simp [resolveOnce, ih h, Except.map]
  | obj v ih =>
    simp only [noTokens] at h
    simp [resolveOnce, ih h, Except.map]

theorem resolveOnce_noTokens (force : Nat → Except String CValue)
    (hforce : ∀ i u, force i = Except.ok u → noTokens u = true) :
    ∀ v w, resolveOnce force v = Except.ok w → noTokens w = true := by
  intro v
  induction v with
  | str s =>
    intro w h
    simp only [resolveOnce, Except.ok.injEq] at h
    subst h; rfl
  | num n =>
    intro w h
    simp only [resolveOnce, Except.ok.injEq] at h
    subst h; rfl
  | undef =>
    intro w h
    simp only [resolveOnce, Except.ok.injEq] at h
    subst h; rfl
  | token i =>
    intro w h
    exact hforce i w h
  | vnil =>
    intro w h
    simp only [resolveOnce, Except.ok.injEq] at h
    subst h; rfl
  | vcons x xs ihx ihxs =>
    intro w h
    cases hx : resolveOnce force x with
    | error e => simp [resolveOnce, hx, Except.bind] at h
    | ok a =>
      cases hxs : resolveOnce force xs with
      | error e => simp [resolveOnce, hx, hxs, Except.bind, Except.map] at h
      | ok b =>
        simp only [resolveOnce, hx, hxs, Except.bind, Except.map, Except.ok.injEq] at h
        subst h
        simp [noTokens, ihx a hx, ihxs b hxs]
  | field k v ih =>
    intro w h
    cases hv : resolveOnce force v with
    | error e => simp [resolveOnce, hv, Except.map] at h
    | ok a =>
      simp only [resolveOnce, hv, Except.map, Except.ok.injEq] at h
      subst h
      simp [noTokens, ih a hv]
  | arr v ih =>
    intro w h
    cases hv : resolveOnce force v with
    | error e => simp [resolveOnce, hv, Except.map] at h
    | ok a =>
      simp only [resolveOnce, hv, Except.map, Except.ok.injEq] at h
      subst h
      simp [noTokens, ih a hv]
  | obj v ih =>
    intro w h
    cases hv : resolveOnce force v with
    | error e => simp [resolveOnce, hv, Except.map] at h
    | ok a =>
      simp only [resolveOnce, hv, Except.map, Except.ok.injEq] at h
      subst h
      simp [noTokens, ih a hv]

theorem resolveTokens_of_noTokens (env : Nat → Except String CValue) (fuel : Nat)
    (v : CValue) (h : noTokens v = true) : resolveTokens env fuel v = Except.ok v := by
  cases fuel with
  | zero => exact resolveOnce_of_noTokens _ v h
  | succ f => exact resolveOnce_of_noTokens _ v h

theorem resolveTokens_noTokens (env : Nat → Except String CValue) :
    ∀ fuel v w, resolveTokens env fuel v = Except.ok w → noTokens w = true := by
  intro fuel
  induction fuel with
  | zero =>
    intro v w h
    refine resolveOnce_noTokens _ ?_ v w h
    intro i u hu
    simp [Except.error] at hu
  | succ f ih =>
    intro v w h
    refine resolveOnce_noTokens _ ?_ v w h
    intro i u hu
    cases he : env i with
    | error e => rw [he] at hu; simp [Except.bind] at hu
    | ok t =>
      rw [he] at hu
      simp only [Except.bind] at hu
      exact ih t u hu

theorem resolveSection_of_noTokens (env : Nat → Except String CValue) (fuel : Nat)
    (v : CValue) (h : noTokens v = true) : resolveSection env fuel v = Except.ok v := by
  cases v with
  | undef => rfl
  | str s => exact resolveTokens_of_noTokens env fuel _ h
  | num n => exact resolveTokens_of_noTokens env fuel _ h
  | token i => exact resolveTokens_of_noTokens env fuel _ h
  | vnil => exact resolveTokens_of_noTokens env fuel _ h
  | vcons x xs => exact resolveTokens_of_noTokens env fuel _ h
  | field k v => exact resolveTokens_of_noTokens env fuel _ h
  | arr v => exact resolveTokens_of_noTokens env fuel _ h
  | obj v => exact resolveTokens_of_noTokens env fuel _ h

theorem resolveSection_noTokens (env : Nat → Except String CValue) (fuel : Nat)
    (v w : CValue) (h : resolveSection env fuel v = Except.ok w) : noTokens w = true := by
  cases v with
  | undef =>
    simp only [resolveSection, Except.ok.injEq] at h
    subst h; rfl
  | str s => exact resolveTokens_noTokens env fuel _ w h
  | num n => exact resolveTokens_noTokens env fuel _ w h
  | token i => exact resolveTokens_noTokens env fuel _ w h
  | vnil => exact resolveTokens_noTokens env fuel _ w h
  | vcons x xs => exact resolveTokens_noTokens env fuel _ w h
  | field k v => exact resolveTokens_noTokens env fuel _ w h
  | arr v => exact resolveTokens_noTokens env fuel _ w h
  | obj v => exact resolveTokens_noTokens env fuel _ w h

theorem resolveLazyVariables_of_noTokens (env : Nat → Except String CValue) (fuel : Nat)
    (s : ServiceSections) (h : sectionsNoTokens s = true) :
    resolveLazyVariables env fuel s = Except.ok s := by
  simp only [sectionsNoTokens, Bool.and_eq_true] at h
  obtain ⟨⟨⟨⟨⟨hp, hf⟩, hc⟩, hr⟩, hl⟩, ho⟩ := h
  simp [resolveLazyVariables,
    resolveSection_of_noTokens env fuel _ hp,
    resolveSection_of_noTokens env fuel _ hf,
    resolveSection_of_noTokens env fuel _ hc,
    resolveSection_of_noTokens env fuel _ hr,
    resolveSection_of_noTokens env fuel _ hl,
    resolveSection_of_noTokens env fuel _ ho,
    Except.bind, Except.map]

theorem resolveLazyVariables_noTokens (env : Nat → Except String CValue) (fuel : Nat)
    (s t : ServiceSections) (h : resolveLazyVariables env fuel s = Except.ok t) :
    sectionsNoTokens t = true := by
  cases hp : resolveSection env fuel s.provider with
  | error e => simp [resolveLazyVariables, hp, Except.bind] at h
  | ok p =>
  cases hf : resolveSection env fuel s.functions with
  | error e => simp [resolveLazyVariables, hp, hf, Except.bind] at h
  | ok f =>
  cases hc : resolveSection env fuel s.custom with
  | error e => simp [resolveLazyVariables, hp, hf, hc, Except.bind] at h
  | ok c =>
  cases hr : resolveSection env fuel s.resources with
  | error e => simp [resolveLazyVariables, hp, hf, hc, hr, Except.bind] at h
  | ok r =>
  cases hl : resolveSection env fuel s.layers with
  | error e => simp [resolveLazyVariables, hp, hf, hc, hr, hl, Except.bind] at h
  | ok l =>
  cases ho : resolveSection env fuel s.outputs with
  | error e => simp [resolveLazyVariables, hp, hf, hc, hr, hl, ho, Except.bind, Except.map] at h
  | ok o =>
    simp only [resolveLazyVariables, hp, hf, hc, hr, hl, ho, Except.bind, Except.map,
      Except.ok.injEq] at h
    subst h
    simp [sectionsNoTokens,
      resolveSection_noTokens env fuel _ _ hp,
      resolveSection_noTokens env fuel _ _ hf,
      resolveSection_noTokens env fuel _ _ hc,
      resolveSection_noTokens env fuel _ _ hr,
      resolveSection_noTokens env fuel _ _ hl,
      resolveSection_noTokens env fuel _ _ ho]

/-- One IAM policy statement (`PolicyStatement` from `src/CloudFormation.ts`):
an action list plus a resource list. -/
structure PolicyStatement where
  actions : List String
  resources : List CValue
deriving DecidableEq

/-- A construct instance (`ConstructInterface`): its `references()` mapping,
its optional `permissions()` (`none` when unimplemented), the resolved
results of its `outputs()` resolvers, and its optional `postDeploy` /
`preRemove` hooks (modelled by the label of the effect they perform). -/
structure ConstructI where
  references : List (String × CValue)
  permissions : Option (List PolicyStatement)
  outputs : List (String × Option String)
  postDeploy : Option String
  preRemove : Option String
deriving DecidableEq

/-- The plugin's `constructs` mapping, keyed by construct id. -/
abbrev ConstructMap := List (String × ConstructI)

/-- Message of the `getConstructs` safeguard. -/
def notInitializedMsg : String := "Constructs are not initialized: this should not happen"

/-- Message of the `loadConstructs` safeguard. -/
def alreadyInitializedMsg : String := "Constructs are already initialized: this should not happen"

/-- Source `LiftPlugin.getConstructs`: read the constructs state, failing when it was
never initialized. -/
def getConstructs (st : Option ConstructMap) : Except String ConstructMap :=
  match st with
  | none => Except.error notInitializedMsg
  | some cs => Except.ok cs

/-- JS `address.split(".", 2)` on the first component: the characters before
the first dot, plus (when a dot exists) the remaining characters. -/
def takeUntilDot : List Char → List Char × Option (List Char)
  | [] => ([], none)
  | c :: cs =>
    if c = '.' then ([], some cs)
    else
      match takeUntilDot cs with
      | (a, r) => (c :: a, r)

/-- JS `address.split(".", 2)`: the construct id is the substring before the
first dot; the property is the segment between the first and second dot
(`none` when the address has no dot, matching the `undefined` array entry). -/
def splitDotLimit2 (address : String) : String × Option String :=
  match takeUntilDot address.data with
  | (idc, none) => (String.mk idc, none)
  | (idc, some rest) => (String.mk idc, some (String.mk (takeUntilDot rest).1))

/-- lodash `has`/indexing applied to the possibly-`undefined` property
segment: JS coerces `undefined` to the key string `"undefined"`. -/
def propertyKey : Option String → String
  | some p => p
  | none => "undefined"

/-- The `resolveReference` error for an unknown construct id. -/
def noConstructMsg (id property : String) : String :=
  "No construct named \x27" ++ id ++ "\x27 was found, the $\x7bconstruct:" ++ id ++
    "." ++ property ++ "\x7d variable is invalid."

/-- The `resolveReference` error for a property missing from `references()`. -/
def unknownPropMsg (id property : String) (keys : List String) : String :=
  "$\x7bconstruct:" ++ id ++ "." ++ property ++
    "\x7d does not exist. Properties available on $\x7bconstruct:" ++ id ++
    "\x7d are: " ++ String.intercalate ", " keys ++ "."

/-- The `produce` closure of `LiftPlugin.resolveReference`: read the constructs
state, split the address, check the construct id, check the property against
`references()`, and return the property's value. -/
def produceReference (st : Option ConstructMap) (address : String) : Except String CValue :=
  match getConstructs st with
  | Except.error e => Except.error e
  | Except.ok constructs =>
    match splitDotLimit2 address with
    | (id, property) =>
      match constructs.lookup id with
      | none => Except.error (noConstructMsg id (propertyKey property))
      | some construct =>
        match (construct.references).lookup (propertyKey property) with
        | none =>
          Except.error (unknownPropMsg id (propertyKey property)
            (construct.references.map Prod.fst))
        | some value => Except.ok value

/-- Source `LiftPlugin.resolveReference`: register a `Lazy` producer for `address` in
the token table and return the opaque token placeholder embedded into the
configuration in place of the variable expression. -/
def resolveReference (tbl : List String) (address : String) : List String × CValue :=
  (tbl ++ [address], CValue.token tbl.length)

/-- Error for a token index with no registered producer. -/
def unknownTokenMsg : String := "Unresolvable token"

/-- The token environment induced by the registered producers: token `i`
forces the deferred value registered for the `i`-th address. -/
def tokenEnv (st : Option ConstructMap) (tbl : List String) : Nat → Except String CValue :=
  fun i =>
    match tbl.get? i with
    | some addr => produceReference st addr
    | none => Except.error unknownTokenMsg

/-- A handle to the provider context (stack scope, output registration, …)
passed to construct factories. -/
structure ProviderHandle where
  stackName : String
deriving DecidableEq

/-- A registered construct class: its static `type` identifier, its factory,
and its optional static `commands()`. -/
structure ConstructClass where
  type : String
  make : String → List (String × String) → ProviderHandle → ConstructI
  commands : Option (List String)

/-- Source `LiftPlugin.getConstructClass`: find the registered class whose static
`type` equals the requested type, failing with an error naming the offending
type string. -/
def getConstructClass (classes : List ConstructClass) (constructType : String) :
    Except String ConstructClass :=
  match classes.find? (fun k => k.type == constructType) with
  | none => Except.error ("Unknown construct type " ++ constructType)
  | some match_ => Except.ok match_

/-- One user declaration under the top-level `constructs` section: its `type`
and its type-specific parameters. -/
structure Decl where
  type : String
  params : List (String × String)
deriving DecidableEq

/-- Modelled from the spec: `AwsProvider.create` lives in
`src/classes/AwsProvider.ts`, which is not included under `src/`.  Per the
spec it resolves the type to a class via the registry (failing with the
unknown-construct-type error when absent) and then constructs an instance
passing the construct id, the type-specific parameters and a handle to the
provider context. -/
def providerCreate (registry : List ConstructClass) (handle : ProviderHandle)
    (ty id : String) (params : List (String × String)) : Except String ConstructI :=
  match getConstructClass registry ty with
  | Except.error e => Except.error e
  | Except.ok cls => Except.ok (cls.make id params handle)

/-- The `for` loop of `loadConstructs`: create one instance per declaration,
in declaration order, failing fast on the first error. -/
def createAll (registry : List ConstructClass) (handle : ProviderHandle) :
    List (String × Decl) → Except String ConstructMap
  | [] => Except.ok []
  | (id, d) :: rest =>
    match providerCreate registry handle d.type id d.params with
    | Except.error e => Except.error e
    | Except.ok c =>
      match createAll registry handle rest with
      | Except.error e => Except.error e
      | Except.ok cs => Except.ok ((id, c) :: cs)

/-- Source `LiftPlugin.loadConstructs`: fail when the constructs state is already
initialized, otherwise create one instance per declaration keyed by id. -/
def loadConstructs (registry : List ConstructClass) (handle : ProviderHandle)
    (decls : List (String × Decl)) (st : Option ConstructMap) :
    Except String ConstructMap :=
  match st with
  | some _ => Except.error alreadyInitializedMsg
  | none => createAll registry handle decls

/-- JS `Array.prototype.flat(1)`. -/
def flatOne : List (List α) → List α
  | [] => []
  | x :: xs => x ++ flatOne xs

/-- Source `LiftPlugin.appendPermissions`: collect `permissions()` from every
construct (empty when unimplemented), flatten one level, and — unless the
collected list is empty — append to the role's existing statements
(initialized to `[]` when absent). -/
def appendPermissions (st : Option ConstructMap)
    (iamRoleStatements : Option (List PolicyStatement)) :
    Except String (Option (List PolicyStatement)) :=
  match getConstructs st with
  | Except.error e => Except.error e
  | Except.ok constructs =>
    match flatOne (constructs.map (fun c => c.2.permissions.getD [])) with
    | [] => Except.ok iamRoleStatements
    | s :: tail =>
      Except.ok (some (iamRoleStatements.getD [] ++ (s :: tail)))

/-- Source `LiftPlugin.info`: for every construct with a non-empty `outputs()`
mapping, print its id and each resolved output that is not `undefined`. -/
def info (st : Option ConstructMap) : Except String (List String) :=
  Except.map
    (fun constructs =>
      flatOne (constructs.map (fun p =>
        if p.2.outputs.length > 0 then
          (p.1 ++ ":") ::
            (p.2.outputs.filterMap (fun o => o.2.map (fun out => "  " ++ o.1 ++ ": " ++ out)))
        else [])))
    (getConstructs st)

/-- Source `LiftPlugin.postDeploy`: run `postDeploy()` on every construct defining
it, sequentially; the result lists the effects performed. -/
def postDeployAll (st : Option ConstructMap) : Except String (List String) :=
  Except.map (fun constructs => constructs.filterMap (fun c => c.2.postDeploy))
    (getConstructs st)

/-- Source `LiftPlugin.preRemove`: run `preRemove()` on every construct defining it,
sequentially. -/
def preRemoveAll (st : Option ConstructMap) : Except String (List String) :=
  Except.map (fun constructs => constructs.filterMap (fun c => c.2.preRemove))
    (getConstructs st)

/-- The handler registered for a construct command hook: resolve the construct
instance on the fly from the constructs state. -/
def runConstructCommand (st : Option ConstructMap) (id : String) :
    Except String (Option ConstructI) :=
  Except.map (fun constructs => constructs.lookup id) (getConstructs st)

/-- The lifecycle events of one plugin run that the ordering claims mention. -/
inductive Ev where
  | loadConstructsE
  | appendPermissionsE
  | resolveLazyVariablesE
  | emitTemplateE
deriving DecidableEq

/-- The body of the `initialize` hook, in source order:
`loadConstructs(); appendPermissions(); resolveLazyVariables();`. -/
def initializeHookEvents : List Ev :=
  [Ev.loadConstructsE, Ev.appendPermissionsE, Ev.resolveLazyVariablesE]

/-- Modelled from the spec: the host deployment tool dispatches the
`initialize` hook strictly before the `after:package:compileEvents` hook
(where `appendCloudformationResources` emits the compiled resource template);
this dispatch order is the host tool's and is not part of `src/`. -/
def pluginRunEvents : List Ev := initializeHookEvents ++ [Ev.emitTemplateE]

/-- Predicate that `sub` occurs contiguously inside `s`. -/
def containsSub (s sub : String) : Prop := ∃ pre post, s = pre ++ sub ++ post

theorem strAppend_assoc (a b c : String) : a ++ b ++ c = a ++ (b ++ c) := by
  cases a with
  | mk da =>
    cases b with
    | mk db =>
      cases c with
      | mk dc =>
        show String.mk ((da ++ db) ++ dc) = String.mk (da ++ (db ++ dc))
        rw [List.append_assoc]

theorem strData_append (s t : String) : (s ++ t).data = s.data ++ t.data := rfl

theorem strMk_data (s : String) : String.mk s.data = s := rfl

theorem takeUntilDot_of_not_mem (l : List Char) (h : '.' ∉ l) :
    takeUntilDot l = (l, none) := by
  induction l with
  | nil => rfl
  | cons c cs ih =>
    simp only [List.mem_cons, not_or] at h
    rw [takeUntilDot, if_neg (fun hc => h.1 hc.symm), ih h.2]

theorem takeUntilDot_append (l r : List Char) (h : '.' ∉ l) :
    takeUntilDot (l ++ '.' :: r) = (l, some r) := by
  induction l with
  | nil => simp [takeUntilDot]
  | cons c cs ih =>
    simp only [List.mem_cons, not_or] at h
    rw [List.cons_append, takeUntilDot, if_neg (fun hc => h.1 hc.symm), ih h.2]

theorem splitDotLimit2_append (a b extra : String) (ha : '.' ∉ a.data) (hb : '.' ∉ b.data) :
    splitDotLimit2 (a ++ "." ++ b ++ "." ++ extra) = (a, some b) := by
  have hdata : (a ++ "." ++ b ++ "." ++ extra).data
      = a.data ++ '.' :: (b.data ++ '.' :: extra.data) := by
    simp [strData_append, List.append_assoc]
  rw [splitDotLimit2, hdata, takeUntilDot_append _ _ ha]
  show (String.mk a.data, some (String.mk (takeUntilDot (b.data ++ '.' :: extra.data)).1))
      = (a, some b)
  rw [takeUntilDot_append _ _ hb]

theorem splitDotLimit2_nodot (a : String) (ha : '.' ∉ a.data) :
    splitDotLimit2 a = (a, none) := by
  rw [splitDotLimit2, takeUntilDot_of_not_mem _ ha]

theorem flatOne_length (l : List (List α)) :
    (flatOne l).length = (l.map List.length).sum := by
  induction l with
  | nil => rfl
  | cons x xs ih => simp [flatOne, ih]

/-- C2: in the initialize phase, construct instantiation runs strictly before
permission aggregation, which runs strictly before forced resolution of
deferred references; forced resolution runs strictly after construct
instantiation and strictly before the compiled resource template is
emitted. -/
theorem lifecycle_ordering :
    pluginRunEvents.indexOf Ev.loadConstructsE < pluginRunEvents.indexOf Ev.appendPermissionsE ∧
    pluginRunEvents.indexOf Ev.appendPermissionsE < pluginRunEvents.indexOf Ev.resolveLazyVariablesE ∧
    pluginRunEvents.indexOf Ev.loadConstructsE < pluginRunEvents.indexOf Ev.resolveLazyVariablesE ∧
    pluginRunEvents.indexOf Ev.resolveLazyVariablesE < pluginRunEvents.indexOf Ev.emitTemplateE := by
  decide

/-- C3: after a successful `loadConstructs`, invoking `loadConstructs` a
second time within the same run fails with the double-initialization error,
regardless of the declarations supplied. -/
theorem double_initialization (registry : List ConstructClass) (handle : ProviderHandle)
    (declsFirst declsSecond : List (String × Decl)) (cs : ConstructMap)
    (h : loadConstructs registry handle declsFirst none = Except.ok cs) :
    loadConstructs registry handle declsSecond (some cs) =
      Except.error alreadyInitializedMsg := rfl

/-- C4: every read of the constructs mapping before `loadConstructs` has run
(forcing a deferred reference, aggregating permissions, `info`, post-deploy,
pre-remove, or a delegated construct command) fails with the not-initialized
error instead of returning an empty or partial mapping. -/
theorem reads_before_init_fail (address cid : String)
    (iam : Option (List PolicyStatement)) :
    produceReference none address = Except.error notInitializedMsg ∧
    appendPermissions none iam = Except.error notInitializedMsg ∧
    info none = Except.error notInitializedMsg ∧
    postDeployAll none = Except.error notInitializedMsg ∧
    preRemoveAll none = Except.error notInitializedMsg ∧
    runConstructCommand none cid = Except.error notInitializedMsg :=
  ⟨rfl, rfl, rfl, rfl, rfl, rfl⟩

/-- C7: permission aggregation flattens the constructs' `permissions()`
lists (empty when unimplemented) into one list, in declaration order, whose
length is the sum of the per-construct counts, and appends it to the role's
existing statements without dropping any of them. -/
theorem permission_aggregation (cs : ConstructMap)
    (iam : Option (List PolicyStatement)) :
    ∃ out, appendPermissions (some cs) iam = Except.ok out ∧
      out.getD [] = iam.getD [] ++ flatOne (cs.map (fun c => c.2.permissions.getD [])) ∧
      (flatOne (cs.map (fun c => c.2.permissions.getD []))).length =
        (cs.map (fun c => (c.2.permissions.getD []).length)).sum := by
  have hlen : (flatOne (cs.map (fun c => c.2.permissions.getD []))).length =
      (cs.map (fun c => (c.2.permissions.getD []).length)).sum := by
    rw [flatOne_length, List.map_map]
    rfl
  cases hst : flatOne (cs.map (fun c => c.2.permissions.getD [])) with
  | nil =>
    refine ⟨iam, ?_, ?_, by rw [hst] at hlen; exact hlen⟩
    · simp [appendPermissions, getConstructs, hst]
    · simp [hst]
  | cons s tail =>
    refine ⟨some (iam.getD [] ++ (s :: tail)), ?_, ?_, by rw [hst] at hlen; exact hlen⟩
    · simp [appendPermissions, getConstructs, hst]
    · simp [hst]

/-- C8: forced resolution is idempotent on token-free input: a configuration
subtree with zero deferred-value tokens resolves to itself, and
`resolveLazyVariables` returns token-free service sections unchanged. -/
theorem forced_resolution_idempotent (env : Nat → Except String CValue) (fuel : Nat)
    (v : CValue) (s : ServiceSections)
    (hv : noTokens v = true) (hs : sectionsNoTokens s = true) :
    resolveTokens env fuel v = Except.ok v ∧
    resolveLazyVariables env fuel s = Except.ok s :=
  ⟨resolveTokens_of_noTokens env fuel v hv, resolveLazyVariables_of_noTokens env fuel s hs⟩

theorem produceReference_ok (cs : ConstructMap) (address id prop : String)
    (c : ConstructI) (v : CValue)
    (hsplit : splitDotLimit2 address = (id, some prop))
    (hc : cs.lookup id = some c)
    (hp : c.references.lookup prop = some v) :
    produceReference (some cs) address = Except.ok v := by
  simp only [produceReference, getConstructs, hsplit, propertyKey, hc, hp]

theorem tokenEnv_concat (st : Option ConstructMap) (tbl : List String) (address : String) :
    tokenEnv st (tbl ++ [address]) tbl.length = produceReference st address := by
  have hget : (tbl ++ [address]).get? tbl.length = some address := by
    induction tbl with
    | nil => rfl
    | cons x xs ih => simpa using ih
  simp [tokenEnv, hget]

/-- C1: for a declared construct `A` with `x` a key of its `references()`
mapping, forcing the deferred value produced by `resolveReference` for the
address `A.x` yields exactly `references(A)["x"]`, and phase-2 resolution
leaves no residual token in any output section. -/
theorem construct_reference_resolution
    (cs : ConstructMap) (tbl : List String) (address id prop : String)
    (c : ConstructI) (v : CValue) (fuel : Nat) (s t : ServiceSections)
    (hsplit : splitDotLimit2 address = (id, some prop))
    (hc : cs.lookup id = some c)
    (hp : c.references.lookup prop = some v)
    (hres : resolveLazyVariables (tokenEnv (some cs) (resolveReference tbl address).1) fuel s
      = Except.ok t) :
    produceReference (some cs) address = Except.ok v ∧
    tokenEnv (some cs) (resolveReference tbl address).1 tbl.length = Except.ok v ∧
    sectionsNoTokens t = true := by
  have h1 := produceReference_ok cs address id prop c v hsplit hc hp
  refine ⟨h1, ?_, resolveLazyVariables_noTokens _ fuel s t hres⟩
  show tokenEnv (some cs) (tbl ++ [address]) tbl.length = Except.ok v
  rw [tokenEnv_concat, h1]

/-- C5: forcing a reference with an unknown construct id fails with a message
containing that id; forcing a reference to a property absent from the
construct's `references()` fails with a message containing the id, the
property, and the joined list of valid property names. -/
theorem reference_error_messages (cs : ConstructMap) (address id prop : String)
    (c : ConstructI) (hsplit : splitDotLimit2 address = (id, some prop)) :
    (cs.lookup id = none →
      produceReference (some cs) address = Except.error (noConstructMsg id prop) ∧
      containsSub (noConstructMsg id prop) id) ∧
    (cs.lookup id = some c → c.references.lookup prop = none →
      produceReference (some cs) address =
        Except.error (unknownPropMsg id prop (c.references.map Prod.fst)) ∧
      containsSub (unknownPropMsg id prop (c.references.map Prod.fst)) id ∧
      containsSub (unknownPropMsg id prop (c.references.map Prod.fst)) prop ∧
      containsSub (unknownPropMsg id prop (c.references.map Prod.fst))
        (String.intercalate ", " (c.references.map Prod.fst))) := by
  constructor
  · intro hnone
    constructor
    · simp only [produceReference, getConstructs, hsplit, propertyKey, hnone]
    · refine ⟨"No construct named \x27",
        "\x27 was found, the $\x7bconstruct:" ++ id ++ "." ++ prop ++
          "\x7d variable is invalid.", ?_⟩
      simp [noConstructMsg, strAppend_assoc]
  · intro hc hpnone
    refine ⟨?_, ?_, ?_, ?_⟩
    · simp only [produceReference, getConstructs, hsplit, propertyKey, hc, hpnone]
    · refine ⟨"$\x7bconstruct:",
        "." ++ prop ++ "\x7d does not exist. Properties available on $\x7bconstruct:" ++
          id ++ "\x7d are: " ++
          String.intercalate ", " (c.references.map Prod.fst) ++ ".", ?_⟩
      simp [unknownPropMsg, strAppend_assoc]
    · refine ⟨"$\x7bconstruct:" ++ id ++ ".",
        "\x7d does not exist. Properties available on $\x7bconstruct:" ++ id ++
          "\x7d are: " ++ String.intercalate ", " (c.references.map Prod.fst) ++ ".", ?_⟩
      simp [unknownPropMsg, strAppend_assoc]
    · refine ⟨"$\x7bconstruct:" ++ id ++ "." ++ prop ++
        "\x7d does not exist. Properties available on $\x7bconstruct:" ++ id ++
          "\x7d are: ", ".", ?_⟩
      simp [unknownPropMsg, strAppend_assoc]

/-- C6: resolving a construct type name returns the first registered class
with that static `type` when one exists, and otherwise fails with an error
naming both the words `Unknown construct type` and the exact offending type
string. -/
theorem unknown_construct_type (classes : List ConstructClass) (t : String) :
    (∃ c, classes.find? (fun k => k.type == t) = some c ∧
      getConstructClass classes t = Except.ok c ∧ c ∈ classes ∧ c.type = t) ∨
    (getConstructClass classes t = Except.error ("Unknown construct type " ++ t) ∧
      classes.all (fun c => c.type != t) = true) := by
  cases hf : classes.find? (fun k => k.type == t) with
  | none =>
    right
    refine ⟨by simp [getConstructClass, hf], ?_⟩
    have hall := List.find?_eq_none.mp hf
    simp only [List.all_eq_true]
    intro c hcm
    have h2 := hall c hcm
    simpa using h2
  | some c =>
    left
    refine ⟨c, rfl, by simp [getConstructClass, hf], List.mem_of_find?_eq_some hf, ?_⟩
    have h2 := List.find?_some hf
    simpa using h2

theorem find_type_exists (registry : List ConstructClass) (t : String)
    (h : ∃ cls ∈ registry, cls.type = t) :
    ∃ c, registry.find? (fun k => k.type == t) = some c ∧ c.type = t := by
  induction registry with
  | nil =>
    obtain ⟨cls, hmem, _⟩ := h
    simp at hmem
  | cons a rest ih =>
    by_cases hat : a.type = t
    · exact ⟨a, by simp [List.find?, hat], hat⟩
    · obtain ⟨cls, hmem, hty⟩ := h
      rcases List.mem_cons.mp hmem with rfl | hmem2
      · exact absurd hty hat
      · obtain ⟨c, hfind, hcty⟩ := ih ⟨cls, hmem2, hty⟩
        refine ⟨c, ?_, hcty⟩
        rw [List.find?_cons_of_neg _ (by simpa using hat), hfind]

theorem createAll_spec (registry : List ConstructClass) (handle : ProviderHandle) :
    ∀ decls : List (String × Decl),
      (∀ d ∈ decls, ∃ cls ∈ registry, cls.type = d.2.type) →
      ∃ cs, createAll registry handle decls = Except.ok cs ∧
        cs.map Prod.fst = decls.map Prod.fst ∧
        cs.length = decls.length ∧
        ∀ p ∈ decls.zip cs, ∃ cls,
          getConstructClass registry p.1.2.type = Except.ok cls ∧
          cls.type = p.1.2.type ∧
          p.2.2 = cls.make p.1.1 p.1.2.params handle := by
  intro decls
  induction decls with
  | nil => exact fun _ => ⟨[], rfl, rfl, rfl, by simp⟩
  | cons hd rest ih =>
    intro h
    obtain ⟨cfound, hfind, htype⟩ :=
      find_type_exists registry hd.2.type (h hd (by simp))
    have hgcc : getConstructClass registry hd.2.type = Except.ok cfound := by
      simp [getConstructClass, hfind]
    obtain ⟨cs, hca, hmap, hlen, hzip⟩ := ih (fun d hd2 => h d (by simp [hd2]))
    refine ⟨(hd.1, cfound.make hd.1 hd.2.params handle) :: cs, ?_, ?_, ?_, ?_⟩
    · simp [createAll, providerCreate, hgcc, hca]
    · simp [hmap]
    · simp [hlen]
    · intro p hp
      rw [List.zip_cons_cons] at hp
      rcases List.mem_cons.mp hp with rfl | hp2
      · exact ⟨cfound, hgcc, htype, rfl⟩
      · exact hzip p hp2

/-- C9: for declarations whose types all resolve in the registry,
`loadConstructs` produces exactly one instance per declaration, keyed by the
declaration id in order, each instance built by the resolved class's factory
from the construct id, the declaration's parameters, and the provider
handle. -/
theorem instantiation_spec (registry : List ConstructClass) (handle : ProviderHandle)
    (decls : List (String × Decl))
    (h : ∀ d ∈ decls, ∃ cls ∈ registry, cls.type = d.2.type) :
    ∃ cs, loadConstructs registry handle decls none = Except.ok cs ∧
      cs.map Prod.fst = decls.map Prod.fst ∧
      cs.length = decls.length ∧
      ∀ p ∈ decls.zip cs, ∃ cls,
        getConstructClass registry p.1.2.type = Except.ok cls ∧
        cls.type = p.1.2.type ∧
        p.2.2 = cls.make p.1.1 p.1.2.params handle :=
  createAll_spec registry handle decls h

/-- C10: `resolveReference` takes the construct id from the address's text
before the first dot and the property from the segment between the first and
second dot, silently discarding anything after a second dot; an address with
no dot yields an `undefined` property, which fails the unknown-property check
(the JS runtime coerces the `undefined` segment to the key `"undefined"`,
absent from the construct's `references()`). -/
theorem address_splitting (a b extra : String) (cs : ConstructMap) (c : ConstructI)
    (v : CValue)
    (ha : '.' ∉ a.data) (hb : '.' ∉ b.data)
    (hc : cs.lookup a = some c)
    (hp : c.references.lookup b = some v)
    (hu : c.references.lookup "undefined" = none) :
    splitDotLimit2 (a ++ "." ++ b ++ "." ++ extra) = (a, some b) ∧
    produceReference (some cs) (a ++ "." ++ b ++ "." ++ extra) = Except.ok v ∧
    splitDotLimit2 a = (a, none) ∧
    produceReference (some cs) a =
      Except.error (unknownPropMsg a "undefined" (c.references.map Prod.fst)) := by
  have h1 := splitDotLimit2_append a b extra ha hb
  have h3 := splitDotLimit2_nodot a ha
  refine ⟨h1, produceReference_ok cs _ a b c v h1 hc hp, h3, ?_⟩
  simp only [produceReference, getConstructs, h3, propertyKey, hc, hu]

/-- A concrete construct instance used to evaluate the theorems. -/
def sampleConstruct : ConstructI where
  references := [("queueArn", CValue.str "arn:aws:sqs:queue")]
  permissions := some [⟨["sqs:SendMessage"], [CValue.str "arn:aws:sqs:queue"]⟩]
  outputs := [("queueUrl", some "https://sqs/queue")]
  postDeploy := none
  preRemove := none

/-- A concrete constructs mapping with one construct, id `queue`. -/
def sampleConstructs : ConstructMap := [("queue", sampleConstruct)]

/-- A concrete registered construct class of type `queue`. -/
def sampleClass : ConstructClass where
  type := "queue"
  make := fun _ _ _ => sampleConstruct
  commands := none

/-- A concrete registry holding `sampleClass`. -/
def sampleRegistry : List ConstructClass := [sampleClass]

/-- A concrete provider handle. -/
def sampleHandle : ProviderHandle := ⟨"app-dev"⟩

/-- A concrete declaration set with one declaration, id `queue`. -/
def sampleDecls : List (String × Decl) := [("queue", ⟨"queue", []⟩)]

theorem construct_reference_resolution_witness :
    produceReference (some sampleConstructs) "queue.queueArn"
      = Except.ok (CValue.str "arn:aws:sqs:queue") ∧
    tokenEnv (some sampleConstructs) (resolveReference [] "queue.queueArn").1 0
      = Except.ok (CValue.str "arn:aws:sqs:queue") ∧
    sectionsNoTokens
      ⟨CValue.str "arn:aws:sqs:queue", CValue.undef, CValue.undef, CValue.undef,
        CValue.undef, CValue.undef⟩ = true :=
  construct_reference_resolution sampleConstructs [] "queue.queueArn" "queue" "queueArn"
    sampleConstruct (CValue.str "arn:aws:sqs:queue") 1
    ⟨CValue.token 0, CValue.undef, CValue.undef, CValue.undef, CValue.undef, CValue.undef⟩
    ⟨CValue.str "arn:aws:sqs:queue", CValue.undef, CValue.undef, CValue.undef,
      CValue.undef, CValue.undef⟩
    rfl rfl rfl rfl

theorem double_initialization_witness :
    loadConstructs sampleRegistry sampleHandle [] (some sampleConstructs)
      = Except.error alreadyInitializedMsg :=
  double_initialization sampleRegistry sampleHandle sampleDecls [] sampleConstructs rfl

theorem reference_error_messages_witness :
    produceReference (some sampleConstructs) "nosuch.thing"
      = Except.error (noConstructMsg "nosuch" "thing") ∧
    containsSub (noConstructMsg "nosuch" "thing") "nosuch" :=
  (reference_error_messages sampleConstructs "nosuch.thing" "nosuch" "thing"
    sampleConstruct rfl).1 rfl

theorem forced_resolution_idempotent_witness :
    resolveTokens (fun _ => Except.error unknownTokenMsg) 2
        (CValue.arr (CValue.vcons (CValue.str "a") CValue.vnil))
      = Except.ok (CValue.arr (CValue.vcons (CValue.str "a") CValue.vnil)) ∧
    resolveLazyVariables (fun _ => Except.error unknownTokenMsg) 2
        ⟨CValue.str "x", CValue.undef, CValue.undef, CValue.undef, CValue.undef,
          CValue.num 7⟩
      = Except.ok
        ⟨CValue.str "x", CValue.undef, CValue.undef, CValue.undef, CValue.undef,
          CValue.num 7⟩ :=
  forced_resolution_idempotent (fun _ => Except.error unknownTokenMsg) 2
    (CValue.arr (CValue.vcons (CValue.str "a") CValue.vnil))
    ⟨CValue.str "x", CValue.undef, CValue.undef, CValue.undef, CValue.undef,
      CValue.num 7⟩
    rfl rfl

theorem instantiation_spec_witness :
    ∃ cs, loadConstructs sampleRegistry sampleHandle sampleDecls none = Except.ok cs ∧
      cs.map Prod.fst = sampleDecls.map Prod.fst ∧
      cs.length = sampleDecls.length := by
  obtain ⟨cs, h1, h2, h3, _⟩ :=
    instantiation_spec sampleRegistry sampleHandle sampleDecls
      (by intro d hd; exact ⟨sampleClass, by simp [sampleRegistry], by
        simp only [sampleDecls, List.mem_singleton] at hd
        subst hd
        rfl⟩)
  exact ⟨cs, h1, h2, h3⟩

theorem address_splitting_witness :
    splitDotLimit2 ("queue" ++ "." ++ "queueArn" ++ "." ++ "rest")
      = ("queue", some "queueArn") ∧
    produceReference (some sampleConstructs) ("queue" ++ "." ++ "queueArn" ++ "." ++ "rest")
      = Except.ok (CValue.str "arn:aws:sqs:queue") ∧
    splitDotLimit2 "queue" = ("queue", none) ∧
    produceReference (some sampleConstructs) "queue"
      = Except.error
          (unknownPropMsg "queue" "undefined" (sampleConstruct.references.map Prod.fst)) :=
  address_splitting "queue" "queueArn" "rest" sampleConstructs sampleConstruct
    (CValue.str "arn:aws:sqs:queue") (by decide) (by decide) rfl rfl rfl

end LiftSpec
